import Mathlib

/-!
Verification development for the SWNMU game-mechanics repository.

Shallow embedding of the Python modules `world/tables.py`, `world/utils.py`,
`world/systems.py`, `world/skills.py`, `world/lighting.py`,
`typeclasses/rooms.py` and `world/chargen.py`.  Python integers are modelled
as `Int` (or `Nat` where the source value is a count), Python dicts keyed by
strings as association lists, `None`-able values as `Option`, and randomness
as explicitly supplied draw values.  Fallible code returns `Except`/`Option`.
-/

namespace SWNMU

/-! ### `world/tables.py` -/

/-- `attribute_modifier_tbl()` from `world/tables.py`: a dict keyed by Python
`range(lo, hi)` objects (half-open integer intervals) mapping to modifiers,
kept in insertion order.  Each entry is `(lo, hi, modifier)`. -/
def attribute_modifier_tbl : List (Int × Int × Int) :=
  [(3, 4, -2), (4, 8, -1), (8, 14, 0), (14, 18, 1), (18, 19, 2)]

/-- `lookup(value, table_func)` from `world/tables.py`: scan the table's
ranges in order, return the first range containing `value`, else `None`.
Python `value in range(lo, hi)` means `lo ≤ value < hi`. -/
def lookup (value : Int) : List (Int × Int × Int) → Option Int
  | [] => none
  | (lo, hi, res) :: rest =>
      if lo ≤ value ∧ value < hi then some res else lookup value rest

/-! ### `world/utils.py`: ability modifier -/

/-- `get_ability_modifier(score)` from `world/utils.py`: a total piecewise
function (the final `else` branch returns 2 for every score above 17). -/
def get_ability_modifier (score : Int) : Int :=
  if score ≤ 3 then -2
  else if score ≤ 7 then -1
  else if score ≤ 13 then 0
  else if score ≤ 17 then 1
  else 2

/-! ### `world/utils.py`: dice expression evaluation

`roll_dice` applies `re.match(r"(\d+)d(\d+)([+-]\d+)?", dice_string)`.
`re.match` anchors at the start of the string only; the greedy `\d+` groups
take maximal digit runs.  We model the match with an explicit scanner over
the character list, returning the parsed groups and the unconsumed suffix. -/

/-- Greedy scan of a maximal leading digit run (the `\d+` behaviour). -/
def spanDigits : List Char → List Char × List Char
  | [] => ([], [])
  | c :: cs =>
      if c.isDigit then
        let p := spanDigits cs
        (c :: p.1, p.2)
      else ([], c :: cs)

/-- Numeric value of a digit run, as Python `int()` of the matched group. -/
def digitsVal (l : List Char) : Nat :=
  l.foldl (fun a c => 10 * a + (c.toNat - 48)) 0

/-- The optional `([+-]\d+)?` group: if the next characters are a sign
followed by at least one digit, consume them and produce the signed value;
otherwise the group does not participate (Python `match.group(3)` is `None`
and the modifier defaults to 0, leaving the characters unconsumed). -/
def parseMod (r : List Char) : Int × List Char :=
  match r with
  | [] => (0, [])
  | c :: rest =>
      if c = '+' then
        if (spanDigits rest).1 = [] then (0, r)
        else ((digitsVal (spanDigits rest).1 : Int), (spanDigits rest).2)
      else if c = '-' then
        if (spanDigits rest).1 = [] then (0, r)
        else (-(digitsVal (spanDigits rest).1 : Int), (spanDigits rest).2)
      else (0, r)

/-- `re.match(r"(\d+)d(\d+)([+-]\d+)?", ·)` on a character list: returns
`(count, sides, modifier)` and the unconsumed suffix, or `none` when the
pattern does not match at the start. -/
def parseDiceList (cs : List Char) : Option ((Nat × Nat × Int) × List Char) :=
  if (spanDigits cs).1 = [] then none
  else
    match (spanDigits cs).2 with
    | c :: rest2 =>
        if c = 'd' then
          if (spanDigits rest2).1 = [] then none
          else
            some ((digitsVal (spanDigits cs).1, digitsVal (spanDigits rest2).1,
              (parseMod (spanDigits rest2).2).1), (parseMod (spanDigits rest2).2).2)
        else none
    | [] => none

/-- The regex match of `roll_dice` on a string. -/
def parseDice (s : String) : Option ((Nat × Nat × Int) × List Char) :=
  parseDiceList s.toList

/-- `DiceResult` dataclass from `world/utils.py`. -/
structure DiceResult where
  rolls : List Int
  modifier : Int
  total : Int
deriving Repr, DecidableEq

/-- The two ways `roll_dice` can raise `ValueError`: its own
`Invalid dice notation` raise (the spec's `InvalidInput`), and the
`empty range` raise inside `random.randint(1, 0)` when `sides` is 0. -/
inductive DiceError where
  | invalidNotation
  | emptyRange
deriving Repr, DecidableEq

/-- `roll_dice(dice_string)` from `world/utils.py`.  The draws of
`random.randint(1, dice_sides)` are modelled by the oracle `g`: the `i`-th
call returns `1 + g i % dice_sides`, which ranges over `[1, dice_sides]`
exactly when `dice_sides ≥ 1`; when `dice_sides = 0` and at least one die is
rolled, `random.randint(1, 0)` raises (empty range). -/
def roll_dice (s : String) (g : Nat → Nat) : Except DiceError DiceResult :=
  match parseDice s with
  | none => .error .invalidNotation
  | some ((num_dice, dice_sides, modifier), _) =>
      if dice_sides = 0 ∧ num_dice ≠ 0 then .error .emptyRange
      else
        let rolls : List Int :=
          (List.range num_dice).map (fun i => ((1 + g i % dice_sides : Nat) : Int))
        .ok { rolls := rolls, modifier := modifier, total := rolls.sum + modifier }

/-! Spec-side rendering of the dice pattern `\d+d\d+([+-]\d+)?`.
These definitions follow the words of the specification (its §6 "Dice
notation" and §4.1), not the code: a claim about the *exact form* of the
input is an anchored (full) match, which we state as the existence of a
decomposition of the whole string into the pattern's groups. -/

/-- A nonempty run of decimal digits (`\d+`). -/
def IsDigits (l : List Char) : Prop := l ≠ [] ∧ ∀ c ∈ l, c.isDigit = true

/-- The pattern `\d+d\d+([+-]\d+)?` matches a prefix of the character list
(the semantics of `re.match`): some decomposition of a prefix into
digits, `d`, digits, with arbitrary remainder. -/
def DicePatternAtStart (cs : List Char) : Prop :=
  ∃ d1 d2 rest, cs = d1 ++ 'd' :: (d2 ++ rest) ∧ IsDigits d1 ∧ IsDigits d2

/-- The string is of the exact form `<count>d<sides>` optionally followed by
a signed integer modifier: the pattern `\d+d\d+([+-]\d+)?` consumes the
*entire* string. -/
def DicePatternExact (cs : List Char) : Prop :=
  ∃ d1 d2 tail, cs = d1 ++ 'd' :: (d2 ++ tail) ∧ IsDigits d1 ∧ IsDigits d2 ∧
    (tail = [] ∨ ∃ sg d3, (sg = '+' ∨ sg = '-') ∧ tail = sg :: d3 ∧ IsDigits d3)

/-! Lemmas relating the greedy scanner to the declarative pattern. -/

theorem spanDigits_append (l : List Char) :
    (spanDigits l).1 ++ (spanDigits l).2 = l := by
  induction l with
  | nil => simp [spanDigits]
  | cons c cs ih =>
      by_cases h : c.isDigit
      · simp [spanDigits, h, ih]
      · simp [spanDigits, h]

theorem spanDigits_all_digits (l : List Char) :
    ∀ c ∈ (spanDigits l).1, c.isDigit = true := by
  induction l with
  | nil => simp [spanDigits]
  | cons c cs ih =>
      by_cases h : c.isDigit
      · simp only [spanDigits, h, if_true]
        intro a ha
        rcases List.mem_cons.mp ha with h1 | h1
        · exact h1 ▸ h
        · exact ih a h1
      · simp [spanDigits, h]

theorem spanDigits_eq_of (d r : List Char)
    (hd : ∀ c ∈ d, c.isDigit = true)
    (hr : ∀ c t, r = c :: t → c.isDigit = false) :
    spanDigits (d ++ r) = (d, r) := by
  induction d with
  | nil =>
      cases r with
      | nil => simp [spanDigits]
      | cons c t => simp [spanDigits, hr c t rfl]
  | cons c d ih =>
      have hc : c.isDigit = true := hd c (List.mem_cons_self c d)
      have hrec := ih (fun x hx => hd x (List.mem_cons_of_mem c hx))
      simp [spanDigits, hc, hrec]

theorem spanDigits_fst_ne_nil (c : Char) (t : List Char) (h : c.isDigit = true) :
    (spanDigits (c :: t)).1 ≠ [] := by
  simp [spanDigits, h]

/-- `re.match` succeeds at the start of the string exactly when the greedy
scanner accepts: the embedded parse is the declarative prefix pattern. -/
theorem parseDiceList_isSome_iff (cs : List Char) :
    (parseDiceList cs).isSome = true ↔ DicePatternAtStart cs := by
  constructor
  · intro h
    rcases h1 : spanDigits cs with ⟨d1, rest1⟩
    cases d1 with
    | nil => simp [parseDiceList, h1] at h
    | cons a d1' =>
        cases rest1 with
        | nil => simp [parseDiceList, h1] at h
        | cons b rest2 =>
            by_cases hb : b = 'd'
            · subst hb
              rcases h2 : spanDigits rest2 with ⟨d2, rest3⟩
              cases d2 with
              | nil => simp [parseDiceList, h1, h2] at h
              | cons e d2' =>
                  refine ⟨a :: d1', e :: d2', rest3, ?_, ?_, ?_⟩
                  · have hcs : (a :: d1') ++ 'd' :: rest2 = cs := by
                      have := spanDigits_append cs
                      rw [h1] at this; exact this
                    have hrest2 : (e :: d2') ++ rest3 = rest2 := by
                      have := spanDigits_append rest2
                      rw [h2] at this; exact this
                    rw [← hcs, ← hrest2]
                  · exact ⟨by simp, fun c hc => by
                      have := spanDigits_all_digits cs
                      rw [h1] at this; exact this c hc⟩
                  · exact ⟨by simp, fun c hc => by
                      have := spanDigits_all_digits rest2
                      rw [h2] at this; exact this c hc⟩
            · simp [parseDiceList, h1, hb] at h
  · rintro ⟨d1, d2, rest, hcs, ⟨hd1ne, hd1dig⟩, ⟨hd2ne, hd2dig⟩⟩
    have h1 : spanDigits cs = (d1, 'd' :: (d2 ++ rest)) := by
      rw [hcs]
      exact spanDigits_eq_of d1 ('d' :: (d2 ++ rest)) hd1dig
        (by intro c t h; injection h with h _; subst h; decide)
    cases d2 with
    | nil => exact absurd rfl hd2ne
    | cons e d2' =>
        have he : e.isDigit = true := hd2dig e (List.mem_cons_self e d2')
        rcases h2 : spanDigits (e :: (d2' ++ rest)) with ⟨f, rest3⟩
        have hf : f ≠ [] := by
          intro hfnil
          have := spanDigits_fst_ne_nil e (d2' ++ rest) he
          rw [h2] at this
          exact this hfnil
        simp [parseDiceList, h1, hd1ne, h2, hf]

/-- If the optional modifier group leaves no characters behind, the
characters it was offered were empty or a sign followed by digits only. -/
theorem parseMod_snd_nil (r : List Char) (h : (parseMod r).2 = []) :
    r = [] ∨ ∃ sg d3, (sg = '+' ∨ sg = '-') ∧ r = sg :: d3 ∧ IsDigits d3 := by
  cases r with
  | nil => exact Or.inl rfl
  | cons c rest =>
      right
      rcases h5 : spanDigits rest with ⟨d3, rest5⟩
      by_cases hp : c = '+'
      · cases d3 with
        | nil => simp [parseMod, hp, h5] at h
        | cons x d3' =>
            refine ⟨'+', x :: d3', Or.inl rfl, ?_, ?_, ?_⟩
            · have happ := spanDigits_append rest
              rw [h5] at happ
              have h2 : rest5 = [] := by
                simpa [parseMod, hp, h5] using h
              rw [hp, ← happ, h2, List.append_nil]
            · simp
            · intro a ha
              have := spanDigits_all_digits rest
              rw [h5] at this; exact this a ha
      · by_cases hm : c = '-'
        · cases d3 with
          | nil => simp [parseMod, hp, hm, h5] at h
          | cons x d3' =>
              refine ⟨'-', x :: d3', Or.inr rfl, ?_, ?_, ?_⟩
              · have happ := spanDigits_append rest
                rw [h5] at happ
                have h2 : rest5 = [] := by
                  simpa [parseMod, hp, hm, h5] using h
                rw [hm, ← happ, h2, List.append_nil]
              · simp
              · intro a ha
                have := spanDigits_all_digits rest
                rw [h5] at this; exact this a ha
        · simp [parseMod, hp, hm] at h

/-- Evaluating the optional group on a sign followed by a pure digit run. -/
theorem parseMod_sign_digits (sg : Char) (d3 : List Char)
    (hsg : sg = '+' ∨ sg = '-') (hd3 : IsDigits d3) :
    (parseMod (sg :: d3)).2 = [] := by
  obtain ⟨hne, hdig⟩ := hd3
  have h5 : spanDigits d3 = (d3, []) := by
    have := spanDigits_eq_of d3 [] hdig (by intro c t h; simp at h)
    simpa using this
  cases d3 with
  | nil => exact absurd rfl hne
  | cons x d3' =>
      rcases hsg with h | h <;> subst h <;> simp [parseMod, h5]

/-- The embedded parse consumes the whole string exactly when the string is
of the exact (fully anchored) dice form. -/
theorem parseDiceList_total_iff (cs : List Char) :
    (∃ t, parseDiceList cs = some (t, [])) ↔ DicePatternExact cs := by
  constructor
  · rintro ⟨t, h⟩
    rcases h1 : spanDigits cs with ⟨d1, rest1⟩
    cases d1 with
    | nil => simp [parseDiceList, h1] at h
    | cons a d1' =>
        cases rest1 with
        | nil => simp [parseDiceList, h1] at h
        | cons b rest2 =>
            by_cases hb : b = 'd'
            · subst hb
              rcases h2 : spanDigits rest2 with ⟨d2, rest3⟩
              cases d2 with
              | nil => simp [parseDiceList, h1, h2] at h
              | cons e d2' =>
                  have hmod : (parseMod rest3).2 = [] := by
                    have := h
                    simp [parseDiceList, h1, h2] at this
                    exact this.2
                  refine ⟨a :: d1', e :: d2', rest3, ?_, ?_, ?_, ?_⟩
                  · have hcs : (a :: d1') ++ 'd' :: rest2 = cs := by
                      have := spanDigits_append cs
                      rw [h1] at this; exact this
                    have hrest2 : (e :: d2') ++ rest3 = rest2 := by
                      have := spanDigits_append rest2
                      rw [h2] at this; exact this
                    rw [← hcs, ← hrest2]
                  · exact ⟨by simp, fun c hc => by
                      have := spanDigits_all_digits cs
                      rw [h1] at this; exact this c hc⟩
                  · exact ⟨by simp, fun c hc => by
                      have := spanDigits_all_digits rest2
                      rw [h2] at this; exact this c hc⟩
                  · rcases parseMod_snd_nil rest3 hmod with h3 | ⟨sg, d3, hsg, hr, hd3⟩
                    · exact Or.inl h3
                    · exact Or.inr ⟨sg, d3, hsg, hr, hd3⟩
            · simp [parseDiceList, h1, hb] at h
  · rintro ⟨d1, d2, tail, hcs, ⟨hd1ne, hd1dig⟩, ⟨hd2ne, hd2dig⟩, htail⟩
    have htail_head : ∀ c t, tail = c :: t → c.isDigit = false := by
      intro c t h
      rcases htail with h0 | ⟨sg, d3, hsg, heq, _⟩
      · rw [h0] at h; simp at h
      · rw [heq] at h
        injection h with h1 _
        subst h1
        rcases hsg with h | h <;> subst h <;> decide
    have h1 : spanDigits cs = (d1, 'd' :: (d2 ++ tail)) := by
      rw [hcs]
      exact spanDigits_eq_of d1 ('d' :: (d2 ++ tail)) hd1dig
        (by intro c t h; injection h with h _; subst h; decide)
    have h2 : spanDigits (d2 ++ tail) = (d2, tail) :=
      spanDigits_eq_of d2 tail hd2dig htail_head
    have hmod : (parseMod tail).2 = [] := by
      rcases htail with h0 | ⟨sg, d3, hsg, heq, hd3⟩
      · rw [h0]; rfl
      · rw [heq]; exact parseMod_sign_digits sg d3 hsg hd3
    cases d2 with
    | nil => exact absurd rfl hd2ne
    | cons e d2' =>
        rw [List.cons_append] at h2
        refine ⟨(digitsVal d1, digitsVal (e :: d2'), (parseMod tail).1), ?_⟩
        simp [parseDiceList, h1, hd1ne, h2, hd2ne, hmod]

/-! ### `world/systems.py`: `SkillSystem` -/

/-- `SkillCheckResult` dataclass from `world/systems.py`. -/
structure SkillCheckResult where
  success : Bool
  roll : Int
  target_number : Int
  skill_level : Int
  attribute_modifier : Int
  difficulty_modifier : Int
  total_modifier : Int
  margin : Int
deriving Repr, DecidableEq

/-- A character as seen by `SkillSystem`: `skills` models the `skills`
attribute (`none` when `hasattr(character, 'skills')` is false), mapping a
skill key to its skill-record dict; `db` models the persistent attribute
store read through `getattr(character.db, attr_name, 10)`. -/
structure Character where
  skills : Option (List (String × List (String × Int)))
  db : List (String × Int)

/-- Python `dict.get(key)` on a string-keyed dict kept as an assoc list. -/
def assocGet {α : Type} (l : List (String × α)) (k : String) : Option α :=
  (l.find? (fun p => p.1 == k)).map Prod.snd

/-- `SkillSystem._get_skill_level`: 0 when the character has no skills
attribute, when the skill is absent, or when its record dict is falsy;
otherwise the record's `level` entry, defaulting to 0. -/
def get_skill_level (c : Character) (skill_name : String) : Int :=
  match c.skills with
  | none => 0
  | some skills =>
      match assocGet skills skill_name with
      | none => 0
      | some skill_data =>
          if skill_data = [] then 0
          else (assocGet skill_data "level").getD 0

/-- The `skill_attributes` mapping inside `_get_attribute_modifier`. -/
def skill_attributes : List (String × String) :=
  [("Hack", "int"), ("Program", "int"), ("Fix", "int"), ("Know", "int"),
   ("Notice", "wis"), ("Survive", "wis"), ("Connect", "wis"), ("Heal", "int"),
   ("Talk", "cha"), ("Lead", "cha"), ("Trade", "cha"), ("Perform", "cha"),
   ("Exert", "str"), ("Punch", "str"), ("Stab", "dex"), ("Shoot", "dex"),
   ("Sneak", "dex"), ("Pilot", "dex")]

/-- `override_attr or skill_attributes.get(skill_name, 'int')`: Python `or`
falls through both on `None` and on the empty string. -/
def governing_attr (skill_name : String) (override_attr : Option String) : String :=
  let dflt := (assocGet skill_attributes skill_name).getD "int"
  match override_attr with
  | none => dflt
  | some s => if s = "" then dflt else s

/-- `getattr(character.db, attr_name, 10)`: the governing attribute's stored
value, defaulting to 10 when unset. -/
def attr_value (c : Character) (skill_name : String) (override_attr : Option String) : Int :=
  (assocGet c.db (governing_attr skill_name override_attr)).getD 10

/-- Python `x or default` on an optional integer: falls through on `None`
and on 0 (both falsy). -/
def pyIntOr (x : Option Int) (d : Int) : Int :=
  match x with
  | none => d
  | some v => if v = 0 then d else v

/-- `SkillSystem._get_attribute_modifier`:
`lookup(attr_value, attribute_modifier_tbl) or 0`. -/
def get_attribute_modifier (c : Character) (skill_name : String)
    (override_attr : Option String) : Int :=
  pyIntOr (lookup (attr_value c skill_name override_attr) attribute_modifier_tbl) 0

/-- `SkillSystem.make_skill_check`: the two `random.randint(1, 6)` draws are
supplied as `d1` and `d2`; `attr` is the source's `attribute` override
parameter (a Lean keyword, hence the shorter name). -/
def make_skill_check (character : Character) (skill_name : String)
    (difficulty : Int) (attr : Option String)
    (modifiers : List (String × Int)) (d1 d2 : Int) : SkillCheckResult :=
  let skill_level := get_skill_level character skill_name
  let attribute_modifier := get_attribute_modifier character skill_name attr
  let difficulty_modifier := (modifiers.map Prod.snd).sum
  let total_modifier := skill_level + attribute_modifier + difficulty_modifier
  let roll := d1 + d2
  let total_roll := roll + total_modifier
  { success := decide (total_roll ≥ difficulty)
    roll := roll
    target_number := difficulty
    skill_level := skill_level
    attribute_modifier := attribute_modifier
    difficulty_modifier := difficulty_modifier
    total_modifier := total_modifier
    margin := total_roll - difficulty }

/-! ### `world/systems.py`: `HackableSystem` -/

/-- The configuration fields of `HackableBehavior` that `HackableSystem`
reads (`difficulty`, `hack_time`, `security_level`). -/
structure HackableConfig where
  difficulty : Int
  hack_time : Int
  security_level : Int
deriving Repr, DecidableEq

/-- The `hack_result` dict built by `attempt_hack` plus the messages the
handlers send (`hacker.msg` / `target.msg`) and the line appended to the
event's history. -/
structure HackAttempt where
  skill_result : SkillCheckResult
  time_taken : Int
  security_triggered : Bool
  detected : Bool
  access_level : Option String
  hacker_msgs : List String
  target_msgs : List String
  history_line : String
deriving Repr, DecidableEq

/-- `HackableSystem._has_hacking_tools`: stub, always `False`. -/
def has_hacking_tools (_hacker : Character) : Bool := false

/-- `HackableSystem._target_is_powered_down`: stub, always `False`. -/
def target_is_powered_down : Bool := false

/-- The security-alert message sent to the target, naming the hacker. -/
def security_alert_text (hackerName : String) : String :=
  s!"SECURITY ALERT: Unauthorized access detected from {hackerName}"

/-- `HackableSystem._handle_successful_hack`.  Note the alert guard in the
source is `hasattr(target, 'msg') and not access_level == 'admin'`. -/
def handle_successful_hack (hackerName targetName : String) (targetHasMsg : Bool)
    (h : HackAttempt) : HackAttempt :=
  let margin := h.skill_result.margin
  let h1 :=
    if margin ≥ 6 then
      { h with
        hacker_msgs := h.hacker_msgs ++
          [s!"Exceptional hack of {targetName}! You gain admin access."]
        access_level := some "admin" }
    else if margin ≥ 3 then
      { h with
        hacker_msgs := h.hacker_msgs ++
          [s!"Clean hack of {targetName}. You gain user access."]
        access_level := some "user" }
    else
      { h with
        hacker_msgs := h.hacker_msgs ++
          [s!"You successfully hack {targetName}, but it\x27s noticed."]
        access_level := some "user"
        security_triggered := true }
  if targetHasMsg = true ∧ h1.access_level ≠ some "admin" then
    { h1 with target_msgs := h1.target_msgs ++ [security_alert_text hackerName] }
  else h1

/-- `HackableSystem._handle_failed_hack`. -/
def handle_failed_hack (hackerName targetName : String) (targetHasMsg : Bool)
    (h : HackAttempt) : HackAttempt :=
  let margin := h.skill_result.margin
  let h1 :=
    if margin ≤ -6 then
      { h with
        hacker_msgs := h.hacker_msgs ++
          [s!"Critical failure hacking {targetName}! You trigger security alerts."]
        security_triggered := true
        detected := true }
    else if margin ≤ -3 then
      { h with
        hacker_msgs := h.hacker_msgs ++
          [s!"Failed to hack {targetName}. Security systems notice the attempt."]
        security_triggered := true }
    else
      { h with
        hacker_msgs := h.hacker_msgs ++
          [s!"Failed to hack {targetName}, but the attempt goes unnoticed."] }
  if h1.security_triggered = true ∧ targetHasMsg = true then
    { h1 with target_msgs := h1.target_msgs ++
        [s!"SECURITY BREACH: Failed hack attempt from {hackerName}"] }
  else h1

/-- `HackableSystem.attempt_hack`: builds the situational modifiers from the
hackable configuration, runs the skill check (dice supplied as `d1`, `d2`),
and dispatches to the success/failure handler; the history line is the one
appended to the event when an event is passed. -/
def attempt_hack (hacker : Character) (hackerName targetName : String)
    (targetHasMsg : Bool) (cfg : HackableConfig) (d1 d2 : Int) : HackAttempt :=
  let security_modifier := -(cfg.security_level - 1) * 2
  let modifiers : List (String × Int) :=
    [("security", security_modifier)]
      ++ (if has_hacking_tools hacker then [("tools", 2)] else [])
      ++ (if target_is_powered_down then [("powered_down", 4)] else [])
  let result := make_skill_check hacker "Hack" cfg.difficulty none modifiers d1 d2
  let base : HackAttempt :=
    { skill_result := result
      time_taken := cfg.hack_time
      security_triggered := false
      detected := false
      access_level := none
      hacker_msgs := []
      target_msgs := []
      history_line := "" }
  let h :=
    if result.success then handle_successful_hack hackerName targetName targetHasMsg base
    else handle_failed_hack hackerName targetName targetHasMsg base
  let outcome := if result.success then "succeeded" else "failed"
  let rl := result.roll
  let tn := result.target_number
  let tot := result.roll + result.total_modifier
  let mg := result.margin
  { h with history_line :=
      s!"Hack {outcome} - Roll: {rl}, Target: {tn}, Total: {tot}, Margin: {mg}" }

/-! ### `world/skills.py`: `HackableBehavior` -/

/-- The slice of an `Event` that `HackableBehavior.handle_hack_event`
touches: the context's `cancelled` flag, the history, and the messages sent
to the two parties. -/
structure EventState where
  cancelled : Bool
  history : List String
  hacker_msgs : List String
  target_msgs : List String
deriving Repr, DecidableEq

/-- The `success_chance` computed by `HackableBehavior.handle_hack_event`,
`max(0.1, 0.7 - difficulty*0.05 - security_level*0.08)`, written with exact
rationals (the source uses binary floating point; the difference does not
matter for any property proved here, since the comparison of
`random.random()` against this value is abstracted as `rollSucceeds`). -/
def success_chance (cfg : HackableConfig) : ℚ :=
  max (1/10) (7/10 - (cfg.difficulty : ℚ) * (1/20) - (cfg.security_level : ℚ) * (2/25))

/-- `HackableBehavior.handle_hack_event` from `world/skills.py`:
`rollSucceeds` stands for `random.random() < success_chance`. -/
def hackable_handle_hack_event (cfg : HackableConfig)
    (hackerName targetName : String) (rollSucceeds : Bool)
    (e : EventState) : EventState :=
  let d := cfg.difficulty
  let t := cfg.hack_time
  let sl := cfg.security_level
  if rollSucceeds then
    { e with
      hacker_msgs := e.hacker_msgs ++
        [s!"You successfully hack {targetName}! (Difficulty: {d}, Security: {sl})"]
      target_msgs := e.target_msgs ++ [s!"You have been hacked by {hackerName}!"]
      history := e.history ++ [s!"Hack successful - Difficulty: {d}, Time: {t}s"] }
  else
    { e with
      hacker_msgs := e.hacker_msgs ++
        [s!"Your hack attempt on {targetName} fails. (Difficulty: {d}, Security: {sl})"]
      target_msgs := e.target_msgs ++ [s!"{hackerName} attempted to hack you but failed."]
      history := e.history ++ [s!"Hack failed - Difficulty: {d}, Security: {sl}"]
      cancelled := true }

/-- `HackableBehavior.handle_event`: dispatches to `handle_hack_event` only
for events whose `event_type` is `"hack"`. -/
def hackable_handle_event (event_type : String) (cfg : HackableConfig)
    (hackerName targetName : String) (rollSucceeds : Bool)
    (e : EventState) : EventState :=
  if event_type = "hack" then
    hackable_handle_hack_event cfg hackerName targetName rollSucceeds e
  else e

/-- Substring test on character lists (used to state what the repository's
own test suite asserts about event-history lines). -/
def containsRun (needle : List Char) : List Char → Bool
  | [] => needle.isEmpty
  | c :: rest => needle.isPrefixOf (c :: rest) || containsRun needle rest

/-! ### `world/lighting.py`: `LightingHandler` -/

/-- One entry of the `light_modifiers` dict: `light_change` plus an optional
absolute `expires_at` game time. -/
structure LightModifier where
  light_change : Int
  expires_at : Option Int
deriving Repr, DecidableEq

/-- A room's lighting state as `LightingHandler` reads it.  `source_outputs`
lists, for each contained entity carrying a `light_source` behavior, the
integer returned by that behavior's `get_light_output` (the loop body of
`_calculate_light_sources` adds exactly these integers). -/
structure RoomLighting where
  base_light_level : Int
  source_outputs : List Int
  light_modifiers : List (String × LightModifier)
  lighting_type : String
deriving Repr, DecidableEq

/-- `LightingHandler._calculate_light_sources`. -/
def calc_light_sources (room : RoomLighting) : Int := room.source_outputs.sum

/-- A modifier has expired when `gametime.gametime() > expires_at`. -/
def modifier_live (now : Int) (m : LightModifier) : Bool :=
  match m.expires_at with
  | none => true
  | some exp => if now > exp then false else true

/-- `LightingHandler._calculate_light_modifiers`: the total `light_change`
over non-expired modifiers, plus the purged modifier map (expired entries
are deleted as a side effect of this read). -/
def calc_light_modifiers (room : RoomLighting) (now : Int) :
    Int × List (String × LightModifier) :=
  let keep := room.light_modifiers.filter (fun p => modifier_live now p.2)
  ((keep.map (fun p => p.2.light_change)).sum, keep)

/-- `LightingHandler._get_outdoor_lighting`: `hour = (time // 3600) % 24`
with Python floor division and nonnegative modulus. -/
def get_outdoor_lighting (now : Int) : Int :=
  let hour := (Int.fdiv now 3600) % 24
  if 6 ≤ hour ∧ hour ≤ 18 then 3
  else if (19 ≤ hour ∧ hour ≤ 21) ∨ (5 ≤ hour ∧ hour ≤ 6) then -1
  else -4

/-- `LightingHandler._calculate_environmental_lighting`. -/
def calc_environmental_lighting (room : RoomLighting) (now : Int) : Int :=
  if room.lighting_type = "outdoor" then get_outdoor_lighting now
  else if room.lighting_type = "space" then -8
  else if room.lighting_type = "underground" then -3
  else 0

/-- `LightingHandler.get_current_light_level`:
`max(0, min(10, total_light))`. -/
def get_current_light_level (room : RoomLighting) (now : Int) : Int :=
  let total_light := room.base_light_level + calc_light_sources room
    + (calc_light_modifiers room now).1 + calc_environmental_lighting room now
  max 0 (min 10 total_light)

/-- `LightingHandler.get_visibility_description`: visibility tier and color
tag for a character with the given vision type. -/
def get_visibility_description (room : RoomLighting) (now : Int)
    (vision_type : String) : String × String :=
  let current_light := get_current_light_level room now
  if current_light ≥ 7 then ("bright", "")
  else if current_light ≥ 4 then ("normal", "")
  else if current_light ≥ 1 then
    (if vision_type = "night_vision" then ("night_vision", "|g")
     else if vision_type = "low_light" then ("dim", "|y")
     else ("dark", ""))
  else
    (if vision_type = "night_vision" then ("night_vision", "|g")
     else ("too_dark", ""))

/-! ### `typeclasses/rooms.py`: `AirlockRoom._eject_contents` -/

/-- An exit of the airlock as the ejection loop inspects it:
`hasattr(exit.destination, 'lighting')` and the destination's lighting
type. -/
structure AirlockExit where
  dest_id : Nat
  dest_has_lighting : Bool
  dest_lighting_type : String
deriving Repr, DecidableEq

/-- A content object of the airlock: its name and whether it is itself an
exit (`obj.destination` truthy). -/
structure AirlockObj where
  obj_name : String
  is_exit : Bool
deriving Repr, DecidableEq

/-- The airlock-room state `_eject_contents` reads and writes. -/
structure AirlockState where
  is_cycling : Bool
  light_modifiers : List (String × LightModifier)
  exits : List AirlockExit
  contents : List AirlockObj
deriving Repr, DecidableEq

/-- Result of one `_eject_contents` run: the new room state, the names moved
to the space room, and the broadcasts to the airlock and destination. -/
structure EjectOutcome where
  state : AirlockState
  moved_to_space : List String
  room_msgs : List String
  dest_msgs : List String
deriving Repr, DecidableEq

/-- The search loop at the top of `_eject_contents`: first exit whose
destination has a lighting handler of type `"space"`. -/
def find_space_exit (exits : List AirlockExit) : Option AirlockExit :=
  exits.find? (fun e => e.dest_has_lighting && (e.dest_lighting_type == "space"))

/-- `LightingHandler.remove_light_modifier`: delete the named entry if
present. -/
def remove_light_modifier (mods : List (String × LightModifier)) (nm : String) :
    List (String × LightModifier) :=
  mods.filter (fun p => !(p.1 == nm))

/-- `AirlockRoom._eject_contents`.  On the no-space-exit path the source
broadcasts an error and resets `is_cycling`, then returns: the contents and
the `light_modifiers` (including any `"cycling_lights"` entry) are left as
they are.  On the normal path every non-exit content is moved, the
`"cycling_lights"` modifier is removed and `is_cycling` reset. -/
def eject_contents (room : AirlockState) : EjectOutcome :=
  match find_space_exit room.exits with
  | none =>
      { state := { room with is_cycling := false }
        moved_to_space := []
        room_msgs := ["|rError: No space exit found!|n"]
        dest_msgs := [] }
  | some _spaceExit =>
      let ejected := (room.contents.filter (fun o => !o.is_exit)).map
        (fun o => o.obj_name)
      let remaining := room.contents.filter (fun o => o.is_exit)
      let names := String.intercalate ", " ejected
      let ejectMsgs :=
        if ejected ≠ [] then [s!"|rEjected to space: {names}|n"] else []
      let destMsgs :=
        if ejected ≠ [] then [s!"|rObjects ejected from airlock: {names}|n"] else []
      { state :=
          { room with
            is_cycling := false
            light_modifiers := remove_light_modifier room.light_modifiers "cycling_lights"
            contents := remaining }
        moved_to_space := ejected
        room_msgs := ejectMsgs ++ ["|gAirlock cycle complete. Chamber sealed.|n"]
        dest_msgs := destMsgs }

/-! ### `world/chargen.py`: the resumable wizard's `current_node` -/

/-- The character sheet slice the resume logic uses: the stored
`current_node` (`none` models both an absent key and an explicit `None`,
which the resume logic treats alike) and every other key of the sheet. -/
structure CharSheet where
  current_node : Option String
  entries : List (String × String)
deriving Repr, DecidableEq

/-- The node names registered in `create_char_menu`. -/
def chargen_menu_nodes : List String :=
  ["start", "background", "background_select", "background_skills",
   "select_growth", "select_learning", "class_select", "class_skills",
   "foci_select", "equipment", "name_character", "review", "confirm", "end"]

/-- The nodes whose functions record themselves in
`sheet['current_node']` on entry. -/
def chargen_recording_nodes : List String :=
  ["start", "background", "background_skills", "class_select", "class_skills",
   "foci_select", "equipment", "name_character", "review"]

/-- Effect of entering a menu node on the sheet's `current_node`: the
recording nodes store their own name, `node_confirm` resets it to `None`,
and every other node — `background_select`, `select_growth`,
`select_learning` and in particular the terminal abort node `node_end` —
leaves the sheet untouched. -/
def visit_node (node : String) (s : CharSheet) : CharSheet :=
  if node ∈ chargen_recording_nodes then { s with current_node := some node }
  else if node = "confirm" then { s with current_node := none }
  else s

/-- `SWNCmdCharCreate.func`: resume at
`sheet.get('current_node', 'start')`, falling back to `"start"` when the
stored value is falsy. -/
def charcreate_start_node (s : CharSheet) : String :=
  match s.current_node with
  | none => "start"
  | some n => if n = "" then "start" else n

/-- Sheets reachable by the wizard: a fresh sheet (no `current_node` yet)
followed by any sequence of menu-node entries. -/
inductive ReachableSheet : CharSheet → Prop where
  | init : ∀ s : CharSheet, s.current_node = none → ReachableSheet s
  | step : ∀ (s : CharSheet) (node : String), node ∈ chargen_menu_nodes →
      ReachableSheet s → ReachableSheet (visit_node node s)

/-! ## Shared helper lemmas -/

/-- Values outside 3–18 fall through every range of the modifier table. -/
theorem lookup_out_of_range (v : Int) (h : v < 3 ∨ 18 < v) :
    lookup v attribute_modifier_tbl = none := by
  rcases h with h | h <;>
    simp only [attribute_modifier_tbl, lookup] <;>
    split_ifs <;> first | rfl | omega

/-- Neither hack-consequence handler changes the embedded skill result. -/
theorem handle_successful_hack_skill_result (a b : String) (c : Bool)
    (h : HackAttempt) :
    (handle_successful_hack a b c h).skill_result = h.skill_result := by
  simp only [handle_successful_hack]
  split_ifs <;> rfl

theorem handle_failed_hack_skill_result (a b : String) (c : Bool)
    (h : HackAttempt) :
    (handle_failed_hack a b c h).skill_result = h.skill_result := by
  simp only [handle_failed_hack]
  split_ifs <;> rfl

/-! ## Claim theorems -/

/-- C4: for every room state (any base light level, any contained light
sources, any modifiers, any lighting type, any game time), the effective
light level returned by `LightingHandler.get_current_light_level` is within
`[0, 10]`, even when the raw sum is negative or exceeds 10. -/
theorem light_level_clamped (room : RoomLighting) (now : Int) :
    0 ≤ get_current_light_level room now ∧ get_current_light_level room now ≤ 10 := by
  unfold get_current_light_level
  exact ⟨le_max_left 0 _, max_le (by norm_num) (min_le_left 10 _)⟩

/-- C5: for every effective light level and vision type,
`get_visibility_description` resolves to exactly one of the seven tiers in
the source's decision order: ≥7 bright, ≥4 normal, ≥1 night_vision / dim /
dark depending on vision, and at 0 night_vision or too_dark. -/
theorem visibility_tier_mapping (room : RoomLighting) (now : Int)
    (vision_type : String) :
    (7 ≤ get_current_light_level room now →
      get_visibility_description room now vision_type = ("bright", ""))
    ∧ (4 ≤ get_current_light_level room now → get_current_light_level room now < 7 →
      get_visibility_description room now vision_type = ("normal", ""))
    ∧ (1 ≤ get_current_light_level room now → get_current_light_level room now < 4 →
      vision_type = "night_vision" →
      get_visibility_description room now vision_type = ("night_vision", "|g"))
    ∧ (1 ≤ get_current_light_level room now → get_current_light_level room now < 4 →
      vision_type ≠ "night_vision" → vision_type = "low_light" →
      get_visibility_description room now vision_type = ("dim", "|y"))
    ∧ (1 ≤ get_current_light_level room now → get_current_light_level room now < 4 →
      vision_type ≠ "night_vision" → vision_type ≠ "low_light" →
      get_visibility_description room now vision_type = ("dark", ""))
    ∧ (get_current_light_level room now = 0 → vision_type = "night_vision" →
      get_visibility_description room now vision_type = ("night_vision", "|g"))
    ∧ (get_current_light_level room now = 0 → vision_type ≠ "night_vision" →
      get_visibility_description room now vision_type = ("too_dark", "")) := by
  unfold get_visibility_description
  refine ⟨?_, ?_, ?_, ?_, ?_, ?_, ?_⟩ <;>
    intros <;> split_ifs <;>
    first
      | rfl
      | omega
      | (simp_all <;> split_ifs <;> first | rfl | omega)

/-- C5 witness: an indoor room at base level 5 with no sources or modifiers
has effective light 5 and is reported as the plain "normal" tier. -/
theorem visibility_tier_mapping_witness :
    get_visibility_description ⟨5, [], [], "indoor"⟩ 0 "normal" = ("normal", "") :=
  (visibility_tier_mapping ⟨5, [], [], "indoor"⟩ 0 "normal").2.1
    (by decide) (by decide)

/-- C7 counterexample: at score 19, `get_ability_modifier` returns 2 — it
does not "return no value" outside 3–18 — while
`lookup(19, attribute_modifier_tbl)` returns no value, so the two do not
agree on every integer score as the claim states. -/
theorem ability_modifier_range_counterexample :
    get_ability_modifier 19 = 2
    ∧ lookup 19 attribute_modifier_tbl = none
    ∧ ¬ lookup 19 attribute_modifier_tbl = some (get_ability_modifier 19) := by
  decide

/-- C7 amended: `get_ability_modifier` is the total piecewise map ≤3→−2,
4–7→−1, 8–13→0, 14–17→+1, ≥18→+2; it agrees with
`lookup(·, attribute_modifier_tbl)` on every score in 3–18, while outside
that range the table lookup yields no value and `get_ability_modifier`
extends the end values (−2 below, +2 above). -/
theorem ability_modifier_agreement (score : Int) :
    (score ≤ 3 → get_ability_modifier score = -2)
    ∧ (4 ≤ score → score ≤ 7 → get_ability_modifier score = -1)
    ∧ (8 ≤ score → score ≤ 13 → get_ability_modifier score = 0)
    ∧ (14 ≤ score → score ≤ 17 → get_ability_modifier score = 1)
    ∧ (18 ≤ score → get_ability_modifier score = 2)
    ∧ (3 ≤ score → score ≤ 18 →
        lookup score attribute_modifier_tbl = some (get_ability_modifier score))
    ∧ ((score < 3 ∨ 18 < score) → lookup score attribute_modifier_tbl = none) := by
  refine ⟨?_, ?_, ?_, ?_, ?_, ?_, fun h => lookup_out_of_range score h⟩ <;>
    intros <;>
    simp only [get_ability_modifier, attribute_modifier_tbl, lookup] <;>
    split_ifs <;> first | rfl | omega

/-- C7 witness: at score 10 both give modifier 0. -/
theorem ability_modifier_agreement_witness :
    lookup 10 attribute_modifier_tbl = some (get_ability_modifier 10) :=
  (ability_modifier_agreement 10).2.2.2.2.2.1 (by decide) (by decide)

/-- C10: when the governing attribute's stored value lies outside the table
range 3–18, `make_skill_check` silently uses `attribute_modifier = 0` (the
range lookup yields no value and `or 0` supplies the default). -/
theorem attr_out_of_range_modifier_zero (character : Character)
    (skill_name : String) (difficulty : Int) (attr : Option String)
    (modifiers : List (String × Int)) (d1 d2 : Int)
    (h : attr_value character skill_name attr < 3
        ∨ 18 < attr_value character skill_name attr) :
    (make_skill_check character skill_name difficulty attr modifiers d1 d2).attribute_modifier
      = 0 := by
  have hnone := lookup_out_of_range (attr_value character skill_name attr) h
  simp [make_skill_check, get_attribute_modifier, hnone, pyIntOr]

/-- C10 witness: a character whose Intelligence is stored as 19 makes a Hack
check with attribute modifier 0 (neither an error nor the +2 end value). -/
theorem attr_out_of_range_modifier_zero_witness :
    (make_skill_check ⟨some [("Hack", [("level", 2)])], [("int", 19)]⟩
      "Hack" 10 none [] 3 4).attribute_modifier = 0 :=
  attr_out_of_range_modifier_zero ⟨some [("Hack", [("level", 2)])], [("int", 19)]⟩
    "Hack" 10 none [] 3 4 (by decide)

/-- C1: `make_skill_check` returns a `SkillCheckResult` in which
`skill_level` is the character's ledger level for the skill (0 if
untrained), `attribute_modifier` is looked up from the governing attribute's
value (default 10 when unset) through the modifier table,
`total_modifier = skill_level + attribute_modifier + difficulty_modifier`
with `difficulty_modifier` the sum of the supplied situational modifiers,
`success` holds exactly when `roll + total_modifier ≥ difficulty`, and
`margin = roll + total_modifier − difficulty`, where `roll` is the sum of
the two 1d6 draws (hence in 2–12). -/
theorem make_skill_check_spec (character : Character) (skill_name : String)
    (difficulty : Int) (attr : Option String) (modifiers : List (String × Int))
    (d1 d2 : Int) (hd1 : 1 ≤ d1 ∧ d1 ≤ 6) (hd2 : 1 ≤ d2 ∧ d2 ≤ 6) :
    (make_skill_check character skill_name difficulty attr modifiers d1 d2).skill_level
        = get_skill_level character skill_name
    ∧ (make_skill_check character skill_name difficulty attr modifiers d1 d2).attribute_modifier
        = pyIntOr (lookup (attr_value character skill_name attr) attribute_modifier_tbl) 0
    ∧ (make_skill_check character skill_name difficulty attr modifiers d1 d2).difficulty_modifier
        = (modifiers.map Prod.snd).sum
    ∧ (make_skill_check character skill_name difficulty attr modifiers d1 d2).total_modifier
        = get_skill_level character skill_name
          + (make_skill_check character skill_name difficulty attr modifiers d1 d2).attribute_modifier
          + (modifiers.map Prod.snd).sum
    ∧ ((make_skill_check character skill_name difficulty attr modifiers d1 d2).success = true
        ↔ (make_skill_check character skill_name difficulty attr modifiers d1 d2).roll
            + (make_skill_check character skill_name difficulty attr modifiers d1 d2).total_modifier
          ≥ difficulty)
    ∧ (make_skill_check character skill_name difficulty attr modifiers d1 d2).margin
        = (make_skill_check character skill_name difficulty attr modifiers d1 d2).roll
          + (make_skill_check character skill_name difficulty attr modifiers d1 d2).total_modifier
          - difficulty
    ∧ (make_skill_check character skill_name difficulty attr modifiers d1 d2).roll = d1 + d2
    ∧ 2 ≤ (make_skill_check character skill_name difficulty attr modifiers d1 d2).roll
    ∧ (make_skill_check character skill_name difficulty attr modifiers d1 d2).roll ≤ 12 := by
  refine ⟨rfl, rfl, rfl, rfl, ?_, rfl, rfl, ?_, ?_⟩
  · simp [make_skill_check]
  · simp only [make_skill_check]; omega
  · simp only [make_skill_check]; omega

/-- C1 witness: a character with Hack level 2 and Intelligence 14 checking
against difficulty 10 with modifiers summing to 0, on draws 3 and 4. -/
theorem make_skill_check_spec_witness :
    (make_skill_check ⟨some [("Hack", [("level", 2)])], [("int", 14)]⟩
        "Hack" 10 none [("tools", 2), ("rushed", -2)] 3 4).skill_level
      = get_skill_level ⟨some [("Hack", [("level", 2)])], [("int", 14)]⟩ "Hack"
    ∧ ((make_skill_check ⟨some [("Hack", [("level", 2)])], [("int", 14)]⟩
        "Hack" 10 none [("tools", 2), ("rushed", -2)] 3 4).success = true
      ↔ (make_skill_check ⟨some [("Hack", [("level", 2)])], [("int", 14)]⟩
        "Hack" 10 none [("tools", 2), ("rushed", -2)] 3 4).roll
        + (make_skill_check ⟨some [("Hack", [("level", 2)])], [("int", 14)]⟩
        "Hack" 10 none [("tools", 2), ("rushed", -2)] 3 4).total_modifier ≥ 10) := by
  have h := make_skill_check_spec ⟨some [("Hack", [("level", 2)])], [("int", 14)]⟩
    "Hack" 10 none [("tools", 2), ("rushed", -2)] 3 4 (by decide) (by decide)
  exact ⟨h.1, h.2.2.2.2.1⟩

/-- C2 counterexample: a successful hack with margin 4 (the "clean hack"
band, 3 ≤ margin < 6) grants user access and leaves `security_triggered`
false, yet the security alert naming the hacker IS sent to the target —
the claim states that no alert is sent in this band. -/
theorem clean_hack_alert_counterexample :
    (attempt_hack ⟨some [("Hack", [("level", 2)])], [("int", 14)]⟩
        "alice" "terminal" true ⟨8, 5, 1⟩ 4 5).skill_result.success = true
    ∧ (attempt_hack ⟨some [("Hack", [("level", 2)])], [("int", 14)]⟩
        "alice" "terminal" true ⟨8, 5, 1⟩ 4 5).skill_result.margin = 4
    ∧ (attempt_hack ⟨some [("Hack", [("level", 2)])], [("int", 14)]⟩
        "alice" "terminal" true ⟨8, 5, 1⟩ 4 5).access_level = some "user"
    ∧ (attempt_hack ⟨some [("Hack", [("level", 2)])], [("int", 14)]⟩
        "alice" "terminal" true ⟨8, 5, 1⟩ 4 5).security_triggered = false
    ∧ (attempt_hack ⟨some [("Hack", [("level", 2)])], [("int", 14)]⟩
        "alice" "terminal" true ⟨8, 5, 1⟩ 4 5).target_msgs
      = [security_alert_text "alice"] := by
  refine ⟨rfl, rfl, rfl, rfl, rfl⟩

/-- C2 amended: on a successful `attempt_hack`, margin ≥ 6 grants admin
access with no alert; 3 ≤ margin < 6 grants user access with
`security_triggered` still false, but the security alert naming the hacker
IS sent to a message-capable target (the source guards the alert on
`access_level != 'admin'`, not on `security_triggered`); margin < 3 grants
user access, flags `security_triggered`, and sends the alert. -/
theorem attempt_hack_success_bands (hacker : Character)
    (hackerName targetName : String) (targetHasMsg : Bool)
    (cfg : HackableConfig) (d1 d2 : Int) (r : HackAttempt)
    (hr : r = attempt_hack hacker hackerName targetName targetHasMsg cfg d1 d2)
    (hs : r.skill_result.success = true) :
    (6 ≤ r.skill_result.margin →
      r.access_level = some "admin" ∧ r.security_triggered = false
      ∧ r.target_msgs = [])
    ∧ (3 ≤ r.skill_result.margin → r.skill_result.margin < 6 →
      r.access_level = some "user" ∧ r.security_triggered = false
      ∧ r.target_msgs
          = if targetHasMsg then [security_alert_text hackerName] else [])
    ∧ (r.skill_result.margin < 3 →
      r.access_level = some "user" ∧ r.security_triggered = true
      ∧ r.target_msgs
          = if targetHasMsg then [security_alert_text hackerName] else []) := by
  subst hr
  simp only [attempt_hack, has_hacking_tools, target_is_powered_down,
    Bool.false_eq_true, if_false, List.append_nil] at *
  set res := make_skill_check hacker "Hack" cfg.difficulty none
    [("security", -(cfg.security_level - 1) * 2)] d1 d2 with hres
  have hsucc : res.success = true := by
    by_cases hb : res.success = true
    · exact hb
    · rw [if_neg hb, handle_failed_hack_skill_result] at hs
      exact absurd hs hb
  rw [if_pos hsucc] at *
  rw [handle_successful_hack_skill_result] at *
  simp only [handle_successful_hack]
  refine ⟨?_, ?_, ?_⟩ <;> intros <;> split_ifs at * <;>
    first
      | omega
      | simp_all

/-- C2 amended witness: margin exactly 6 grants admin access and no alert
reaches the target. -/
theorem attempt_hack_success_bands_witness :
    (attempt_hack ⟨some [("Hack", [("level", 2)])], [("int", 14)]⟩
        "alice" "terminal" true ⟨8, 5, 1⟩ 6 5).access_level = some "admin"
    ∧ (attempt_hack ⟨some [("Hack", [("level", 2)])], [("int", 14)]⟩
        "alice" "terminal" true ⟨8, 5, 1⟩ 6 5).security_triggered = false
    ∧ (attempt_hack ⟨some [("Hack", [("level", 2)])], [("int", 14)]⟩
        "alice" "terminal" true ⟨8, 5, 1⟩ 6 5).target_msgs = [] :=
  (attempt_hack_success_bands ⟨some [("Hack", [("level", 2)])], [("int", 14)]⟩
    "alice" "terminal" true ⟨8, 5, 1⟩ 6 5 _ rfl (by decide)).1 (by decide)

/-- C3: evaluating `HackableBehavior.handle_event` on a `"hack"` event at
the configuration of the repository's own integration test
(`difficulty = 8`, `security_level = 1`): the handler resolves the attempt
by its internal coin flip, producing history lines of the form
`Hack successful/failed - Difficulty: …` — none containing the substring
`succeeded` that `attempt_hack` writes and that the repository's test
asserts — while `attempt_hack` on the same configuration writes a
`Hack succeeded - Roll: …` line; cancellation follows the coin flip, not a
skill-check outcome. -/
theorem hackable_behavior_no_delegation :
    (hackable_handle_event "hack" ⟨8, 5, 1⟩ "char1" "room1" true
        ⟨false, [], [], []⟩).history
      = ["Hack successful - Difficulty: 8, Time: 5s"]
    ∧ (∀ line ∈ (hackable_handle_event "hack" ⟨8, 5, 1⟩ "char1" "room1" true
        ⟨false, [], [], []⟩).history,
        containsRun "succeeded".toList line.toList = false)
    ∧ (hackable_handle_event "hack" ⟨8, 5, 1⟩ "char1" "room1" true
        ⟨false, [], [], []⟩).cancelled = false
    ∧ (hackable_handle_event "hack" ⟨8, 5, 1⟩ "char1" "room1" false
        ⟨false, [], [], []⟩).history
      = ["Hack failed - Difficulty: 8, Security: 1"]
    ∧ (hackable_handle_event "hack" ⟨8, 5, 1⟩ "char1" "room1" false
        ⟨false, [], [], []⟩).cancelled = true
    ∧ containsRun "succeeded".toList
        (attempt_hack ⟨some [("Hack", [("level", 1)])], [("int", 16)]⟩
          "char1" "room1" true ⟨8, 5, 1⟩ 4 4).history_line.toList = true := by
  decide

/-- C6 counterexample: `"2d6x"` is not of the exact form
`<count>d<sides>[±<modifier>]`, yet `roll_dice` does not fail — `re.match`
anchors only at the start of the string, so the trailing `x` is ignored. -/
theorem roll_dice_trailing_counterexample :
    roll_dice "2d6x" (fun _ => 0) = .ok ⟨[1, 1], 0, 2⟩
    ∧ ¬ DicePatternExact "2d6x".toList := by
  constructor
  · rfl
  · intro h
    obtain ⟨t, ht⟩ := (parseDiceList_total_iff "2d6x".toList).mpr h
    have hconc : parseDiceList "2d6x".toList = some ((2, 6, 0), ['x']) := by rfl
    rw [hconc] at ht
    simp at ht

/-- Dispatch form of `roll_dice` once the regex match is known. -/
theorem roll_dice_eq_of_parse (s : String) (g : Nat → Nat)
    (count sides : Nat) (modifier : Int) (rest : List Char)
    (hp : parseDice s = some ((count, sides, modifier), rest)) :
    roll_dice s g =
      if sides = 0 ∧ count ≠ 0 then .error .emptyRange
      else
        .ok { rolls := (List.range count).map (fun i => ((1 + g i % sides : Nat) : Int))
              modifier := modifier
              total := ((List.range count).map
                  (fun i => ((1 + g i % sides : Nat) : Int))).sum + modifier } := by
  unfold roll_dice
  rw [hp]

/-- C6 amended: `roll_dice` fails with the invalid-notation error exactly
when the pattern `\d+d\d+([+-]\d+)?` does not match at the *start* of the
string (trailing characters are ignored, since `re.match` is only
start-anchored); whenever it returns a `DiceResult`, the result holds
`count` rolls each within `[1, sides]`, the parsed modifier (0 when the
optional group is absent), and a total equal to the sum of the rolls plus
the modifier. -/
theorem roll_dice_amended (s : String) (g : Nat → Nat) :
    (roll_dice s g = .error .invalidNotation ↔ ¬ DicePatternAtStart s.toList)
    ∧ (∀ count sides modifier rest res,
        parseDice s = some ((count, sides, modifier), rest) →
        roll_dice s g = .ok res →
        res.rolls.length = count
        ∧ (∀ x ∈ res.rolls, 1 ≤ x ∧ x ≤ (sides : Int))
        ∧ res.modifier = modifier
        ∧ res.total = res.rolls.sum + modifier) := by
  constructor
  · rw [← parseDiceList_isSome_iff]
    unfold roll_dice parseDice
    rcases hp : parseDiceList s.toList with _ | ⟨⟨⟨count, sides, modifier⟩, rest⟩⟩
    · simp
    · simp only [hp, Option.isSome_some]
      constructor
      · intro h
        split_ifs at h
        simp_all
      · intro h
        simp at h
  · intro count sides modifier rest res hp hok
    rw [roll_dice_eq_of_parse s g count sides modifier rest hp] at hok
    split_ifs at hok with hguard
    case _ =>
      simp only [Except.ok.injEq] at hok
      subst hok
      refine ⟨by simp, ?_, rfl, rfl⟩
      intro x hx
      simp only [List.mem_map, List.mem_range] at hx
      obtain ⟨i, hi, rfl⟩ := hx
      have hsides : sides ≠ 0 := by
        intro h0
        rcases Nat.eq_zero_or_pos count with hc | hc
        · omega
        · exact hguard ⟨h0, by omega⟩
      have hlt : g i % sides < sides := Nat.mod_lt _ (Nat.pos_of_ne_zero hsides)
      refine ⟨?_, ?_⟩ <;> omega

/-- C6 amended witness: `"2d6+5"` with draws 1 and 3 yields two rolls in
`[1, 6]`, modifier 5 and total `1 + 3 + 5`. -/
theorem roll_dice_amended_witness :
    (⟨[1, 3], 5, 9⟩ : DiceResult).rolls.length = 2
    ∧ (∀ x ∈ (⟨[1, 3], 5, 9⟩ : DiceResult).rolls, 1 ≤ x ∧ x ≤ (6 : Int))
    ∧ (⟨[1, 3], 5, 9⟩ : DiceResult).modifier = 5
    ∧ (⟨[1, 3], 5, 9⟩ : DiceResult).total
        = (⟨[1, 3], 5, 9⟩ : DiceResult).rolls.sum + 5 :=
  (roll_dice_amended "2d6+5" (fun i => 2 * i)).2 2 6 5 [] ⟨[1, 3], 5, 9⟩ rfl rfl

/-- C8 counterexample: an ejection with no space exit broadcasts the error,
moves nothing and resets `is_cycling`, but the temporary `cycling_lights`
modifier is still in the modifier map afterwards — the failure path does not
remove it, contrary to the claim. -/
theorem eject_abort_modifier_counterexample :
    (eject_contents ⟨true, [("cycling_lights", ⟨-2, some 10⟩)],
        [⟨1, true, "indoor"⟩], [⟨"crate", false⟩]⟩).state.is_cycling = false
    ∧ (eject_contents ⟨true, [("cycling_lights", ⟨-2, some 10⟩)],
        [⟨1, true, "indoor"⟩], [⟨"crate", false⟩]⟩).moved_to_space = []
    ∧ (eject_contents ⟨true, [("cycling_lights", ⟨-2, some 10⟩)],
        [⟨1, true, "indoor"⟩], [⟨"crate", false⟩]⟩).room_msgs
      = ["|rError: No space exit found!|n"]
    ∧ (eject_contents ⟨true, [("cycling_lights", ⟨-2, some 10⟩)],
        [⟨1, true, "indoor"⟩], [⟨"crate", false⟩]⟩).state.light_modifiers
      = [("cycling_lights", ⟨-2, some 10⟩)] := by
  decide

/-- C8 amended: when no exit leads to a room of `"space"` lighting type,
`_eject_contents` aborts — it broadcasts the error, moves no contained
entity, and resets `is_cycling` to false — but the failure path does *not*
remove the temporary `cycling_lights` lighting modifier (or touch the
modifier map at all); only the successful path removes it. -/
theorem eject_abort_amended (room : AirlockState)
    (h : find_space_exit room.exits = none) :
    (eject_contents room).state.is_cycling = false
    ∧ (eject_contents room).moved_to_space = []
    ∧ (eject_contents room).room_msgs = ["|rError: No space exit found!|n"]
    ∧ (eject_contents room).state.contents = room.contents
    ∧ (eject_contents room).state.light_modifiers = room.light_modifiers := by
  simp [eject_contents, h]

/-- C8 amended witness: the counterexample state has no space exit, and the
abort leaves its modifier map unchanged. -/
theorem eject_abort_amended_witness :
    (eject_contents ⟨true, [("cycling_lights", ⟨-2, some 10⟩)],
        [⟨1, true, "indoor"⟩], [⟨"crate", false⟩]⟩).state.light_modifiers
      = [("cycling_lights", ⟨-2, some 10⟩)] :=
  (eject_abort_amended ⟨true, [("cycling_lights", ⟨-2, some 10⟩)],
    [⟨1, true, "indoor"⟩], [⟨"crate", false⟩]⟩ (by decide)).2.2.2.2

/-- C9 counterexample: entering the wizard (the start node records
`current_node = "start"`) and immediately aborting (the terminal end node
writes nothing), re-running `charcreate` resumes at `"start"` — the wizard
restarts at `"start"`, it does not resume at the terminal `"end"` node as
the claim states. -/
theorem chargen_abort_resume_counterexample :
    charcreate_start_node (visit_node "end" (visit_node "start" ⟨none, []⟩))
      = "start"
    ∧ "start" ≠ "end" := by
  decide

/-- C9 amended: aborting the wizard leaves the partial sheet completely
untouched (`node_end` writes nothing), so `charcreate` re-enters at whatever
node last recorded itself in `current_node` — never at the terminal `"end"`
node, which no node function ever stores; aborting before leaving the first
node therefore restarts at `"start"`. -/
theorem chargen_abort_resume_amended (s : CharSheet) (h : ReachableSheet s) :
    visit_node "end" s = s
    ∧ charcreate_start_node (visit_node "end" s) = charcreate_start_node s
    ∧ charcreate_start_node (visit_node "end" s) ≠ "end" := by
  have hend : ∀ t : CharSheet, visit_node "end" t = t := by
    intro t
    simp [visit_node, chargen_recording_nodes]
  have hinv : s.current_node ≠ some "end" := by
    induction h with
    | init t ht => rw [ht]; simp
    | step t node hmem ht ih =>
        unfold visit_node
        split_ifs with h1 h2
        · intro hcontr
          have hnode : node = "end" := by simpa using hcontr
          rw [hnode] at h1
          simp [chargen_recording_nodes] at h1
        · simp
        · exact ih
  refine ⟨hend s, by rw [hend s], ?_⟩
  rw [hend s]
  unfold charcreate_start_node
  rcases hc : s.current_node with _ | n
  · decide
  · have hn : n ≠ "end" := by
      intro he
      exact hinv (by rw [hc, he])
    dsimp only
    split_ifs with h1
    · decide
    · exact hn

/-- C9 amended witness: a fresh sheet is reachable, abort leaves it alone,
and the resume node is not `"end"`. -/
theorem chargen_abort_resume_amended_witness :
    visit_node "end" (⟨none, []⟩ : CharSheet) = ⟨none, []⟩
    ∧ charcreate_start_node (visit_node "end" (⟨none, []⟩ : CharSheet))
        = charcreate_start_node ⟨none, []⟩
    ∧ charcreate_start_node (visit_node "end" (⟨none, []⟩ : CharSheet)) ≠ "end" :=
  chargen_abort_resume_amended ⟨none, []⟩ (ReachableSheet.init ⟨none, []⟩ rfl)

end SWNMU
